import Mathlib

set_option autoImplicit false
set_option maxRecDepth 100000

namespace RestCountries

/-! Shallow embedding of `src/main.py`: a small HTTP gateway over a
country-metadata API (restcountries), a world-time API (worldtimeapi), an
image host, and pytz's country→time-zone table.  Each upstream is modelled as
a deterministic response function inside an `Env`; Python exceptions become
`Except` errors. -/

/-- A JSON-like value: strings, objects as ordered key-value lists, arrays. -/
inductive Json where
  | str : String → Json
  | obj : List (String × Json) → Json
  | arr : List Json → Json

/-- The `{official, common}` pair inside the upstream `nativeName` mapping. -/
structure NativeName where
  official : String
  common : String
deriving Repr, DecidableEq

/-- One element of the JSON array returned by the country-metadata upstream
(restcountries `/v3.1/alpha/{code}`), restricted to the fields the source
reads. -/
structure CountryApiEntry where
  nameCommon : String
  nameOfficial : String
  nativeName : List (String × NativeName)
  languages : List (String × String)
  altSpellings : List String
  flagsPng : String
deriving Repr, DecidableEq

/-- An HTTP response from the country-metadata upstream: status code and JSON
body.  The body is a JSON array; any body on which the source's field accesses
`country_data[0]["name"]["common"]` etc. would fail (for instance the
`{"status": 404, ...}` object restcountries sends on errors) is modelled by the
empty list. -/
structure MetaResponse where
  status : Nat
  body : List CountryApiEntry
deriving Repr, DecidableEq

/-- An HTTP response from the world-time upstream: status code and the optional
"datetime" field of its JSON body (absent on error bodies). -/
structure TimeResponse where
  status : Nat
  datetime : Option String
deriving Repr, DecidableEq

/-- An HTTP response from fetching the flag image URL: status code and the
decoded image dimensions when the body bytes are a decodable image. -/
structure ImgResponse where
  status : Nat
  decoded : Option (Nat × Nat)
deriving Repr, DecidableEq

/-- The deterministic upstream world a single request sees: the
country-metadata API, the world-time API, the image host, and pytz's
country→time-zone table.  The table is partial: `pytz.country_timezones`
raises a KeyError for ISO codes absent from it (e.g. "XK", "BV"), modelled as
`none`. -/
structure Env where
  countries : String → MetaResponse
  times : String → TimeResponse
  images : String → ImgResponse
  tzTable : String → Option (List String)

/-- Failure modes of the embedded operations.  `tzLookupError` is the KeyError
`pytz.country_timezones` raises for a code absent from its table;
`timeZoneNotFound` is the checked error the specification describes for the
time client; the source never produces it (it parses the body without
checking the HTTP status). -/
inductive ApiError where
  | countryNotFound
  | metaParseError
  | tzLookupError
  | timeParseError
  | timeZoneNotFound
  | imgHttpError
  | imgDecodeError
deriving Repr, DecidableEq

/-- The dictionary returned by `get_country_details` (the source key
`native_name(s)` is the field `native_name`). -/
structure CountryDetails where
  country_code : String
  iso_2_letter_code : String
  common_name : String
  official_name : String
  native_name : List (String × NativeName)
  local_languages : List (String × String)
  time_zones : List String
deriving Repr, DecidableEq

/-- Character-wise upper-casing, Python's `str.upper()` on ASCII strings
(written over the character list so the kernel can evaluate it; Lean's
`String.toUpper` recurses on byte positions and does not reduce). -/
def strUpper (s : String) : String :=
  ⟨s.data.map Char.toUpper⟩

/-- Embedding of `get_country_details` (src/main.py lines 26-49): fetch
`restcountries /v3.1/alpha/{code}`, raise "Country not found" unless the
status code is exactly 200, then read the first array element, the first
alternate spelling, and the pytz time-zone table.  A failing field access
(`country_data[0]`, `altSpellings[0]`) is the `metaParseError` outcome; the
KeyError `pytz.country_timezones` raises for a code absent from its table is
the `tzLookupError` outcome. -/
def get_country_details (env : Env) (country_code : String) :
    Except ApiError CountryDetails :=
  let response := env.countries country_code
  if response.status ≠ 200 then
    .error .countryNotFound
  else
    match response.body with
    | [] => .error .metaParseError
    | entry :: _ =>
      match entry.altSpellings with
      | [] => .error .metaParseError
      | two_letter_c_iso :: _ =>
        match env.tzTable two_letter_c_iso with
        | none => .error .tzLookupError
        | some country_tzs =>
          .ok {
            country_code := strUpper country_code
            iso_2_letter_code := two_letter_c_iso
            common_name := entry.nameCommon
            official_name := entry.nameOfficial
            native_name := entry.nativeName
            local_languages := entry.languages
            time_zones := country_tzs
          }

/-- Embedding of `get_current_time` (src/main.py lines 63-70): fetch the
world-time API and read the "datetime" field of the JSON body without checking
the HTTP status; a body without that field surfaces as `timeParseError`.  The
returned single-entry dictionary is a one-element association list. -/
def get_current_time (env : Env) (time_zone : String) :
    Except ApiError (List (String × String)) :=
  match (env.times time_zone).datetime with
  | none => .error .timeParseError
  | some current_iso_date_time => .ok [(time_zone, current_iso_date_time)]

/-! IEEE-754 binary64 model.  Python floats are binary64 with round to
nearest, ties to even; `int()` on a positive float truncates.  Values are
dyadic rationals `n * 2 ^ e` with `n : Nat`, `e : Int`. -/

/-- Round the rational `a / b` (with `b ≠ 0`) to the nearest integer, ties to
even. -/
def roundHalfEven (a b : Nat) : Nat :=
  let q := a / b
  let r := a % b
  if 2 * r < b then q
  else if b < 2 * r then q + 1
  else if q % 2 = 0 then q else q + 1

/-- Fuel-driven floor of the base-2 logarithm (structural recursion so the
kernel can evaluate it). -/
def log2F : Nat → Nat → Nat
  | 0, _ => 0
  | fuel + 1, n => if n ≥ 2 then log2F fuel (n / 2) + 1 else 0

/-- Floor of the base-2 logarithm of a natural number (0 for 0). -/
def natLog2 (n : Nat) : Nat :=
  log2F n n

/-- Whether `2 ^ e ≤ a / b` for an integer exponent `e` and `a b ≥ 1`. -/
def pow2LeRat (e : Int) (a b : Nat) : Bool :=
  if 0 ≤ e then b * 2 ^ e.toNat ≤ a else b ≤ a * 2 ^ (-e).toNat

/-- Floor of the base-2 logarithm of the positive rational `a / b`. -/
def ratLog2 (a b : Nat) : Int :=
  let c : Int := (natLog2 a : Int) - (natLog2 b : Int)
  if pow2LeRat (c + 1) a b then c + 1
  else if pow2LeRat c a b then c
  else c - 1

/-- Round the nonnegative rational `a / b` to the nearest IEEE-754 binary64
value (round to nearest, ties to even), returned as a dyadic pair `(n, e)`
meaning `n * 2 ^ e`; the 53-bit significand is `n` (up to the carry case
`n = 2 ^ 53`, whose value is still exact).  Normal range only (no
subnormals or overflow), which covers every value arising below. -/
def flRat (a b : Nat) : Nat × Int :=
  if a = 0 then (0, 0) else
  let e := ratLog2 a b
  let s := e - 52
  let num := if 0 ≤ s then a else a * 2 ^ (-s).toNat
  let den := if 0 ≤ s then b * 2 ^ s.toNat else b
  (roundHalfEven num den, s)

/-- Floor of the dyadic value `n * 2 ^ e`. -/
def dyadicFloor (n : Nat) (e : Int) : Nat :=
  if 0 ≤ e then n * 2 ^ e.toNat else n / 2 ^ (-e).toNat

/-- The resize height computed exactly as src/main.py lines 96-98 does in
Python floats: `width_percent = 250 / float(w)` (one correctly rounded
division), `float(h) * width_percent` (one correctly rounded multiplication),
then `int()` truncation.  Assumes `w ≥ 1` (the source would raise
ZeroDivisionError at `w = 0`). -/
def pyResizeHeight (w h : Nat) : Nat :=
  let wf := flRat w 1
  let width_percent :=
    if 0 ≤ wf.2 then flRat 250 (wf.1 * 2 ^ wf.2.toNat)
    else flRat (250 * 2 ^ (-wf.2).toNat) wf.1
  let hf := flRat h 1
  let e := width_percent.2 + hf.2
  let a := hf.1 * width_percent.1
  let prod :=
    if 0 ≤ e then flRat (a * 2 ^ e.toNat) 1
    else flRat a (2 ^ (-e).toNat)
  dyadicFloor prod.1 prod.2

/-- The dictionary returned by `get_country_flag`. -/
structure FlagResult where
  output_path : String
  image_size : Nat × Nat
deriving Repr, DecidableEq

/-- Embedding of `get_country_flag` (src/main.py lines 87-107): the metadata
response body is used without any status check (a body of the wrong shape is
`metaParseError`, from the KeyError the source's subscripts would raise); the
image fetch goes through `raise_for_status`, which raises exactly for statuses
400-599; undecodable bytes raise at `Image.open` (`imgDecodeError`); the
resize height follows Python float arithmetic (`pyResizeHeight`) and the
output path embeds the country code verbatim. -/
def get_country_flag (env : Env) (country_code : String) :
    Except ApiError FlagResult :=
  let response := env.countries country_code
  match response.body with
  | [] => .error .metaParseError
  | entry :: _ =>
    let response_img := env.images entry.flagsPng
    if 400 ≤ response_img.status ∧ response_img.status < 600 then
      .error .imgHttpError
    else
      match response_img.decoded with
      | none => .error .imgDecodeError
      | some wh =>
        .ok {
          output_path := "public/" ++ country_code ++ "_flag_250.png"
          image_size := (250, pyResizeHeight wh.1 wh.2)
        }

/-- Embedding of the health-check handler `read_root` (src/main.py lines
120-124); it depends on nothing, and `.ok` corresponds to HTTP status 200. -/
def read_root (_env : Env) : Except ApiError (List (String × Json)) :=
  .ok [("health_check", Json.str "Hello there!")]

/-- The nested `nativeName` mapping rendered as JSON. -/
def nativeNameJson (l : List (String × NativeName)) : Json :=
  .obj (l.map fun p =>
    (p.1, Json.obj [("official", Json.str p.2.official),
                    ("common", Json.str p.2.common)]))

/-- A string-to-string mapping rendered as JSON. -/
def stringMapJson (l : List (String × String)) : Json :=
  .obj (l.map fun p => (p.1, Json.str p.2))

/-- The sequential per-zone fetch loop, Python's list comprehension
`[get_current_time(timezone) for timezone in country_local_times]`; the first
failure propagates. -/
def get_times_list (env : Env) : List String →
    Except ApiError (List (List (String × String)))
  | [] => .ok []
  | tz :: rest => do
    let t ← get_current_time env tz
    let ts ← get_times_list env rest
    .ok (t :: ts)

/-- The details response object assembled from the metadata and the per-zone
times, with the source's literal keys (src/main.py lines 149-155), including
the misspelled "local_languagues" and the key "current_time(s)". -/
def detailsResponse (country_data : CountryDetails)
    (current_times : List (List (String × String))) : List (String × Json) :=
  [("common_name", Json.str country_data.common_name),
   ("official_name", Json.str country_data.official_name),
   ("native_name", nativeNameJson country_data.native_name),
   ("local_languagues", stringMapJson country_data.local_languages),
   ("current_time(s)",
     Json.arr (current_times.map fun m => stringMapJson m))]

/-- Embedding of the `country_details` handler (src/main.py lines 144-155):
it calls `get_country_details` twice (once for the metadata, once only for the
time-zone list), fetches the current time for each zone sequentially, and
assembles the response object. -/
def country_details (env : Env) (country_code : String) :
    Except ApiError (List (String × Json)) := do
  let country_data ← get_country_details env country_code
  let second_call ← get_country_details env country_code
  let country_local_times := second_call.time_zones
  let current_times ← get_times_list env country_local_times
  .ok (detailsResponse country_data current_times)

/-- Modelled from the spec: the single-call variant of the details handler
that the specification proposes ("implementers should call once and reuse the
result rather than preserve the duplication"), for comparison with
`country_details`. -/
def country_details_single (env : Env) (country_code : String) :
    Except ApiError (List (String × Json)) := do
  let country_data ← get_country_details env country_code
  let current_times ← get_times_list env country_data.time_zones
  .ok (detailsResponse country_data current_times)

/-- Embedding of the `get_flag` handler (src/main.py lines 166-169): returns
`get_country_flag`'s result unchanged. -/
def get_flag (env : Env) (country_code : String) : Except ApiError FlagResult :=
  get_country_flag env country_code

/-- The per-zone time entry a successful `get_current_time` produces (the
"datetime" field defaulted for the total statement; it is only used where the
field is present). -/
def timeEntry (env : Env) (tz : String) : List (String × String) :=
  [(tz, ((env.times tz).datetime).getD "")]

/-- The keys of a successful handler response (empty on error). -/
def respKeys (r : Except ApiError (List (String × Json))) : List String :=
  match r with
  | .ok resp => resp.map Prod.fst
  | .error _ => []

/-! Concrete upstream worlds used for witnesses and counterexamples. -/

/-- A restcountries entry for the United States (abridged to the fields the
source reads). -/
def usEntry : CountryApiEntry := {
  nameCommon := "United States"
  nameOfficial := "United States of America"
  nativeName := [("eng", { official := "United States of America",
                           common := "United States" })]
  languages := [("eng", "English")]
  altSpellings := ["US", "USA", "United States of America"]
  flagsPng := "https://flagcdn.com/w320/us.png"
}

/-- A healthy upstream world: metadata answers 200 with `usEntry`, the time API
answers every zone, the flag image is a decodable 277×277 PNG. -/
def goodEnv : Env := {
  countries := fun _ => { status := 200, body := [usEntry] }
  times := fun tz => { status := 200, datetime := some ("T" ++ tz) }
  images := fun _ => { status := 200, decoded := some (277, 277) }
  tzTable := fun _ => some ["America/New_York", "America/Chicago"]
}

/-- The parsed details `goodEnv` yields. -/
def goodD : CountryDetails := {
  country_code := "US"
  iso_2_letter_code := "US"
  common_name := "United States"
  official_name := "United States of America"
  native_name := [("eng", { official := "United States of America",
                            common := "United States" })]
  local_languages := [("eng", "English")]
  time_zones := ["America/New_York", "America/Chicago"]
}

/-- The details handler response `goodEnv` yields. -/
def goodResp : List (String × Json) :=
  detailsResponse goodD (goodD.time_zones.map (timeEntry goodEnv))

/-- Like `goodEnv`, but the metadata upstream answers status 201. -/
def env201 : Env :=
  { goodEnv with countries := fun _ => { status := 201, body := [usEntry] } }

/-- Like `goodEnv`, but the metadata upstream answers status 404 (with the same
well-formed array body, which is all `get_country_flag` looks at). -/
def env404 : Env :=
  { goodEnv with countries := fun _ => { status := 404, body := [usEntry] } }

/-- Like `goodEnv`, but the image host answers status 404. -/
def envImg404 : Env :=
  { goodEnv with images := fun _ => { status := 404, decoded := none } }

/-- Like `goodEnv`, but the time upstream answers 503 with an error body that
has no "datetime" field. -/
def envTimeDown : Env :=
  { goodEnv with times := fun _ => { status := 503, datetime := none } }

/-- Like `goodEnv`, but the time upstream answers status 500 while still
carrying a "datetime" field in the body. -/
def envTime500 : Env :=
  { goodEnv with times := fun tz => { status := 500, datetime := some ("T" ++ tz) } }

/-! Claim theorems. -/

/-- C2: for every request (and independently of every upstream), `GET /`
returns HTTP 200 (`.ok`) with exactly the JSON body
`{"health_check": "Hello there!"}`. -/
theorem C2_health_check : ∀ env env' : Env,
    read_root env = .ok [("health_check", Json.str "Hello there!")] ∧
    read_root env = read_root env' :=
  fun _ _ => ⟨rfl, rfl⟩

/-- C3 counterexample: 201 is an HTTP success status, and the upstream body is
a perfectly well-formed country array, yet `get_country_details` raises the
country-not-found error — so the error is not raised "exactly when the
upstream responds with a non-success status". -/
theorem C3_counterexample :
    (200 ≤ (env201.countries "US").status ∧ (env201.countries "US").status < 300) ∧
    get_country_details env201 "US" = .error .countryNotFound :=
  ⟨by decide, rfl⟩

/-- C3 amended: `get_country_details` raises the country-not-found error
exactly when the metadata upstream status is not exactly 200 (so also on
success statuses such as 201); for every 200 response whose body is a
non-empty array with a non-empty `altSpellings`, and whose first alternate
spelling is present in pytz's country time-zone table, it returns the parsed
`CountryDetails` (a code absent from the table instead raises the table's
KeyError). -/
theorem C3_amended (env : Env) (code : String) :
    (get_country_details env code = .error .countryNotFound ↔
      (env.countries code).status ≠ 200) ∧
    (∀ entry rest iso isoRest tzs,
      (env.countries code).status = 200 →
      (env.countries code).body = entry :: rest →
      entry.altSpellings = iso :: isoRest →
      env.tzTable iso = some tzs →
      get_country_details env code = .ok {
        country_code := strUpper code
        iso_2_letter_code := iso
        common_name := entry.nameCommon
        official_name := entry.nameOfficial
        native_name := entry.nativeName
        local_languages := entry.languages
        time_zones := tzs }) := by
  constructor
  · by_cases h : (env.countries code).status = 200
    · cases hb : (env.countries code).body with
      | nil => simp [get_country_details, h, hb]
      | cons entry rest =>
        cases ha : entry.altSpellings with
        | nil => simp [get_country_details, h, hb, ha]
        | cons iso isoRest =>
          cases htz : env.tzTable iso with
          | none => simp [get_country_details, h, hb, ha, htz]
          | some tzs => simp [get_country_details, h, hb, ha, htz]
    · simp [get_country_details, h]
  · intro entry rest iso isoRest tzs hs hb ha htz
    simp [get_country_details, hs, hb, ha, htz]

/-- C3 amended, witness at a concrete input. -/
theorem C3_amended_witness :
    get_country_details goodEnv "us" = .ok {
      country_code := "US"
      iso_2_letter_code := "US"
      common_name := "United States"
      official_name := "United States of America"
      native_name := [("eng", { official := "United States of America",
                                common := "United States" })]
      local_languages := [("eng", "English")]
      time_zones := ["America/New_York", "America/Chicago"] } := by
  exact (C3_amended goodEnv "us").2 usEntry [] "US" ["USA", "United States of America"]
    ["America/New_York", "America/Chicago"] rfl rfl rfl rfl

/-! Inversion lemmas for the details handler. -/

/-- Reduction of do-notation: binding a success. -/
theorem except_bind_ok {α β : Type} (a : α) (f : α → Except ApiError β) :
    (bind (Except.ok a) f : Except ApiError β) = f a := rfl

/-- Reduction of do-notation: binding a failure. -/
theorem except_bind_error {α β : Type} (e : ApiError)
    (f : α → Except ApiError β) :
    (bind (Except.error e) f : Except ApiError β) = .error e := rfl

/-- A successful details response decomposes into a successful metadata parse,
a successful per-zone fetch, and the assembled `detailsResponse`. -/
theorem country_details_ok_inv (env : Env) (code : String)
    (resp : List (String × Json)) (h : country_details env code = .ok resp) :
    ∃ d ts, get_country_details env code = .ok d ∧
      get_times_list env d.time_zones = .ok ts ∧ resp = detailsResponse d ts := by
  unfold country_details at h
  cases hd : get_country_details env code with
  | error e =>
    rw [hd, except_bind_error] at h
    exact Except.noConfusion h
  | ok d =>
    rw [hd, except_bind_ok, except_bind_ok] at h
    simp only [] at h
    cases ht : get_times_list env d.time_zones with
    | error e =>
      rw [ht, except_bind_error] at h
      exact Except.noConfusion h
    | ok ts =>
      rw [ht, except_bind_ok] at h
      have hr : detailsResponse d ts = resp := by injection h
      exact ⟨d, ts, rfl, ht, hr.symm⟩

/-- The sequential per-zone loop returns the per-zone entries in zone order. -/
theorem get_times_list_ok_map (env : Env) (zs : List String)
    (ts : List (List (String × String)))
    (h : get_times_list env zs = .ok ts) : ts = zs.map (timeEntry env) := by
  induction zs generalizing ts with
  | nil =>
    simp only [get_times_list] at h
    injection h with h
    exact h.symm
  | cons tz rest ih =>
    simp only [get_times_list] at h
    cases hdt : (env.times tz).datetime with
    | none =>
      rw [show get_current_time env tz = .error .timeParseError by
            unfold get_current_time; rw [hdt], except_bind_error] at h
      exact Except.noConfusion h
    | some d =>
      rw [show get_current_time env tz = .ok [(tz, d)] by
            unfold get_current_time; rw [hdt], except_bind_ok] at h
      cases hrest : get_times_list env rest with
      | error e =>
        rw [hrest, except_bind_error] at h
        exact Except.noConfusion h
      | ok ts' =>
        rw [hrest, except_bind_ok] at h
        have hts : [(tz, d)] :: ts' = ts := by injection h
        rw [← hts, ih ts' hrest]
        simp [timeEntry, hdt]

/-- Every zone the loop traversed successfully has its `get_current_time`
result equal to its `timeEntry`. -/
theorem get_times_list_ok_mem (env : Env) (zs : List String)
    (ts : List (List (String × String)))
    (h : get_times_list env zs = .ok ts) :
    ∀ tz ∈ zs, get_current_time env tz = .ok (timeEntry env tz) := by
  induction zs generalizing ts with
  | nil => intro tz htz; cases htz
  | cons tz0 rest ih =>
    simp only [get_times_list] at h
    cases hdt : (env.times tz0).datetime with
    | none =>
      rw [show get_current_time env tz0 = .error .timeParseError by
            unfold get_current_time; rw [hdt], except_bind_error] at h
      exact Except.noConfusion h
    | some d =>
      rw [show get_current_time env tz0 = .ok [(tz0, d)] by
            unfold get_current_time; rw [hdt], except_bind_ok] at h
      cases hrest : get_times_list env rest with
      | error e =>
        rw [hrest, except_bind_error] at h
        exact Except.noConfusion h
      | ok ts' =>
        intro tz htz
        rcases List.mem_cons.mp htz with rfl | hmem
        · unfold get_current_time timeEntry
          rw [hdt]
          rfl
        · exact ih ts' hrest tz hmem

/-- Indexing a mapped list with a default: for an in-range index the entry is
the function applied to the zone at that index. -/
theorem getD_map_timeEntry (env : Env) (zs : List String) (i : Nat)
    (hi : i < zs.length) :
    (zs.map (timeEntry env)).getD i [] = timeEntry env (zs.getD i "") := by
  induction zs generalizing i with
  | nil => cases hi
  | cons z rest ih =>
    cases i with
    | zero => rfl
    | succ j => exact ih j (Nat.lt_of_succ_lt_succ hi)

/-- An in-range defaulted index hits a member of the list. -/
theorem getD_mem_of_lt (zs : List String) (i : Nat) (hi : i < zs.length) :
    zs.getD i "" ∈ zs := by
  induction zs generalizing i with
  | nil => cases hi
  | cons z rest ih =>
    cases i with
    | zero => exact List.mem_cons_self z rest
    | succ j => exact List.mem_cons_of_mem z (ih j (Nat.lt_of_succ_lt_succ hi))

/-- C4 counterexample: a successful details request whose response keys are
"common_name", "official_name", "native_name", "local_languagues" (the
source's misspelling) and "current_time(s)" — not the "local_languages" and
"current_times" the claim states. -/
theorem C4_counterexample :
    country_details goodEnv "US" = .ok goodResp ∧
    respKeys (country_details goodEnv "US") =
      ["common_name", "official_name", "native_name", "local_languagues",
       "current_time(s)"] ∧
    respKeys (country_details goodEnv "US") ≠
      ["common_name", "official_name", "native_name", "local_languages",
       "current_times"] :=
  ⟨rfl, rfl, by decide⟩

/-- C4 amended: every successful details response has exactly the keys
common_name, official_name, native_name, local_languagues, current_time(s)
(in that order), and the value under current_time(s) is the ordered sequence
of single-entry zone→timestamp mappings. -/
theorem C4_amended (env : Env) (code : String) (resp : List (String × Json))
    (h : country_details env code = .ok resp) :
    resp.map Prod.fst = ["common_name", "official_name", "native_name",
      "local_languagues", "current_time(s)"] ∧
    ∃ d, get_country_details env code = .ok d ∧
      resp = detailsResponse d (d.time_zones.map (timeEntry env)) ∧
      ∀ m ∈ d.time_zones.map (timeEntry env), ∃ z t, m = [(z, t)] := by
  obtain ⟨d, ts, hd, ht, hresp⟩ := country_details_ok_inv env code resp h
  have hts := get_times_list_ok_map env _ _ ht
  subst hts
  subst hresp
  refine ⟨rfl, d, hd, rfl, ?_⟩
  intro m hm
  obtain ⟨z, _, rfl⟩ := List.mem_map.mp hm
  exact ⟨z, _, rfl⟩

/-- C4 amended, witness at a concrete input. -/
theorem C4_amended_witness :
    goodResp.map Prod.fst = ["common_name", "official_name", "native_name",
      "local_languagues", "current_time(s)"] ∧
    ∃ d, get_country_details goodEnv "US" = .ok d ∧
      goodResp = detailsResponse d (d.time_zones.map (timeEntry goodEnv)) ∧
      ∀ m ∈ d.time_zones.map (timeEntry goodEnv), ∃ z t, m = [(z, t)] :=
  C4_amended goodEnv "US" goodResp rfl

/-- C5: the current-times sequence in a successful details response appears in
the response exactly as the zone-indexed map, and its i-th entry is the
`get_current_time` result for the i-th zone of the time-zone table lookup. -/
theorem C5_ordering (env : Env) (code : String) (d : CountryDetails)
    (resp : List (String × Json))
    (hd : get_country_details env code = .ok d)
    (hr : country_details env code = .ok resp) :
    resp = detailsResponse d (d.time_zones.map (timeEntry env)) ∧
    ∀ i, i < d.time_zones.length →
      (d.time_zones.map (timeEntry env)).getD i [] =
        timeEntry env (d.time_zones.getD i "") ∧
      get_current_time env (d.time_zones.getD i "") =
        .ok ((d.time_zones.map (timeEntry env)).getD i []) := by
  obtain ⟨d', ts, hd', ht, hresp⟩ := country_details_ok_inv env code resp hr
  rw [hd] at hd'
  have hdd : d = d' := by injection hd'
  subst hdd
  have hts := get_times_list_ok_map env _ _ ht
  subst hts
  subst hresp
  refine ⟨rfl, ?_⟩
  intro i hi
  have hmap := getD_map_timeEntry env d.time_zones i hi
  refine ⟨hmap, ?_⟩
  rw [hmap]
  exact get_times_list_ok_mem env _ _ ht _ (getD_mem_of_lt d.time_zones i hi)

/-- C5, witness at a concrete input with two time zones. -/
theorem C5_ordering_witness :
    goodResp = detailsResponse goodD (goodD.time_zones.map (timeEntry goodEnv)) ∧
    ∀ i, i < goodD.time_zones.length →
      (goodD.time_zones.map (timeEntry goodEnv)).getD i [] =
        timeEntry goodEnv (goodD.time_zones.getD i "") ∧
      get_current_time goodEnv (goodD.time_zones.getD i "") =
        .ok ((goodD.time_zones.map (timeEntry goodEnv)).getD i []) := by
  exact C5_ordering goodEnv "US" goodD goodResp rfl rfl

/-- C7: the second metadata call of the details handler is redundant — against
every fixed upstream world, the handler equals the single-call variant that
reuses the first result. -/
theorem C7_redundant_call (env : Env) (code : String) :
    country_details env code = country_details_single env code := by
  unfold country_details country_details_single
  cases get_country_details env code with
  | error e => rfl
  | ok d => rfl

/-- C9: a successful `get_current_time` returns a mapping with exactly one
entry, keyed by the input zone; hence every element of the current-times
sequence assembled by the details handler is a single-entry mapping keyed by
its zone. -/
theorem C9_single_entry (env : Env) :
    (∀ tz m, get_current_time env tz = .ok m →
      m.length = 1 ∧ m.map Prod.fst = [tz]) ∧
    (∀ zs ts, get_times_list env zs = .ok ts → ∀ i, i < zs.length →
      (ts.getD i []).length = 1 ∧
      (ts.getD i []).map Prod.fst = [zs.getD i ""]) := by
  constructor
  · intro tz m h
    unfold get_current_time at h
    cases hdt : (env.times tz).datetime with
    | none => rw [hdt] at h; exact Except.noConfusion h
    | some d =>
      rw [hdt] at h
      have : [(tz, d)] = m := by injection h
      subst this
      exact ⟨rfl, rfl⟩
  · intro zs ts h i hi
    have hts := get_times_list_ok_map env _ _ h
    subst hts
    rw [getD_map_timeEntry env zs i hi]
    exact ⟨rfl, rfl⟩

/-- C9, witness at a concrete input. -/
theorem C9_single_entry_witness :
    (([("Europe/Madrid", "TEurope/Madrid")] : List (String × String)).length = 1 ∧
      ([("Europe/Madrid", "TEurope/Madrid")] : List (String × String)).map
        Prod.fst = ["Europe/Madrid"]) := by
  exact (C9_single_entry goodEnv).1 "Europe/Madrid"
    [("Europe/Madrid", "TEurope/Madrid")] rfl

/-- C6 counterexample: the metadata call fails (status 404), yet
`get_country_flag` raises no error at all — it never looks at the metadata
status, so a failed metadata call does not produce a flag-not-found error. -/
theorem C6_counterexample :
    (env404.countries "US").status = 404 ∧
    get_country_flag env404 "US" =
      .ok { output_path := "public/US_flag_250.png", image_size := (250, 249) } :=
  ⟨rfl, rfl⟩

/-- C6 amended: `get_country_flag` ignores the metadata HTTP status entirely
(its result depends only on the metadata body and the image host); it fails
with a parse error exactly when the metadata body is not a non-empty array;
given a non-empty array it fails with the image-download error exactly when
the image fetch status is in 400..599 (`raise_for_status`), and otherwise
fails with the image-decode error exactly when the bytes are not a decodable
image. -/
theorem C6_amended (env : Env) (code : String) :
    (∀ env' : Env, (env'.countries code).body = (env.countries code).body →
      env'.images = env.images →
      get_country_flag env' code = get_country_flag env code) ∧
    (get_country_flag env code = .error .metaParseError ↔
      (env.countries code).body = []) ∧
    (∀ entry rest, (env.countries code).body = entry :: rest →
      ((get_country_flag env code = .error .imgHttpError ↔
        (400 ≤ (env.images entry.flagsPng).status ∧
          (env.images entry.flagsPng).status < 600)) ∧
       (¬(400 ≤ (env.images entry.flagsPng).status ∧
           (env.images entry.flagsPng).status < 600) →
        (get_country_flag env code = .error .imgDecodeError ↔
          (env.images entry.flagsPng).decoded = none)))) := by
  refine ⟨?_, ?_, ?_⟩
  · intro env' h1 h2
    simp only [get_country_flag, h1, h2]
  · cases hb : (env.countries code).body with
    | nil => simp [get_country_flag, hb]
    | cons entry rest =>
      by_cases himg : 400 ≤ (env.images entry.flagsPng).status ∧
          (env.images entry.flagsPng).status < 600
      · simp [get_country_flag, hb, himg]
      · cases hdec : (env.images entry.flagsPng).decoded with
        | none => simp [get_country_flag, hb, himg, hdec]
        | some wh => simp [get_country_flag, hb, himg, hdec]
  · intro entry rest hb
    by_cases himg : 400 ≤ (env.images entry.flagsPng).status ∧
        (env.images entry.flagsPng).status < 600
    · constructor
      · simp [get_country_flag, hb, himg]
      · intro h; exact absurd himg h
    · constructor
      · cases hdec : (env.images entry.flagsPng).decoded with
        | none => simp [get_country_flag, hb, himg, hdec]
        | some wh => simp [get_country_flag, hb, himg, hdec]
      · intro _
        cases hdec : (env.images entry.flagsPng).decoded with
        | none => simp [get_country_flag, hb, himg, hdec]
        | some wh => simp [get_country_flag, hb, himg, hdec]

/-- C6 amended, witness at a concrete input (image host answers 404). -/
theorem C6_amended_witness :
    get_country_flag envImg404 "US" = .error .imgHttpError := by
  exact (((C6_amended envImg404 "US").2.2 usEntry [] rfl).1).mpr (by decide)

/-- C8: `get_current_time` never consults the HTTP status — its result is a
function of the response body's "datetime" field alone; when that field is
absent (as on an upstream error body) the outcome is the propagated parse
error, and the only error it ever produces is that parse error (never the
checked `timeZoneNotFound` the specification describes). -/
theorem C8_no_status_check (env env' : Env) (tz : String) :
    ((env.times tz).datetime = (env'.times tz).datetime →
      get_current_time env tz = get_current_time env' tz) ∧
    ((env.times tz).datetime = none →
      get_current_time env tz = .error .timeParseError) ∧
    (∀ e, get_current_time env tz = .error e → e = .timeParseError) := by
  refine ⟨?_, ?_, ?_⟩
  · intro h
    unfold get_current_time
    rw [h]
  · intro h
    unfold get_current_time
    rw [h]
  · intro e he
    unfold get_current_time at he
    cases hdt : (env.times tz).datetime with
    | none =>
      rw [hdt] at he
      injection he with he
      exact he.symm
    | some d =>
      rw [hdt] at he
      exact Except.noConfusion he

/-- C8, witness: a 500-status response with a "datetime" field parses exactly
like a 200-status one, and a 503 error body without the field surfaces as the
parse error. -/
theorem C8_no_status_check_witness :
    get_current_time envTime500 "Europe/Madrid" =
      get_current_time goodEnv "Europe/Madrid" ∧
    get_current_time envTimeDown "Europe/Madrid" = .error .timeParseError := by
  exact ⟨(C8_no_status_check envTime500 goodEnv "Europe/Madrid").1 rfl,
         (C8_no_status_check envTimeDown goodEnv "Europe/Madrid").2.1 rfl⟩

/-- A successful flag result's output path embeds the requested code
verbatim. -/
theorem get_country_flag_ok_path (env : Env) (code : String) (r : FlagResult)
    (h : get_country_flag env code = .ok r) :
    r.output_path = "public/" ++ code ++ "_flag_250.png" := by
  cases hb : (env.countries code).body with
  | nil => simp [get_country_flag, hb] at h
  | cons entry rest =>
    by_cases himg : 400 ≤ (env.images entry.flagsPng).status ∧
        (env.images entry.flagsPng).status < 600
    · simp [get_country_flag, hb, himg] at h
    · cases hdec : (env.images entry.flagsPng).decoded with
      | none => simp [get_country_flag, hb, himg, hdec] at h
      | some wh =>
        simp [get_country_flag, hb, himg, hdec] at h
        rw [← h]

/-- A successful details result upper-cases the requested code. -/
theorem get_country_details_ok_code (env : Env) (code : String)
    (d : CountryDetails) (h : get_country_details env code = .ok d) :
    d.country_code = strUpper code := by
  by_cases hs : (env.countries code).status = 200
  · cases hb : (env.countries code).body with
    | nil => simp [get_country_details, hs, hb] at h
    | cons entry rest =>
      cases ha : entry.altSpellings with
      | nil => simp [get_country_details, hs, hb, ha] at h
      | cons iso isoRest =>
        cases htz : env.tzTable iso with
        | none => simp [get_country_details, hs, hb, ha, htz] at h
        | some tzs =>
          simp [get_country_details, hs, hb, ha, htz] at h
          rw [← h]
  · simp [get_country_details, hs] at h

/-- C10: `get_country_flag` embeds the requested country code verbatim in the
output path `public/{code}_flag_250.png`, so the requests "us" and "US" write
to distinct files, while `get_country_details` upper-cases the code in its
result. -/
theorem C10_verbatim_case (env : Env) :
    (∀ code r, get_country_flag env code = .ok r →
      r.output_path = "public/" ++ code ++ "_flag_250.png") ∧
    (∀ r r', get_country_flag env "us" = .ok r →
      get_country_flag env "US" = .ok r' →
      r.output_path ≠ r'.output_path) ∧
    (∀ code d, get_country_details env code = .ok d →
      d.country_code = strUpper code) := by
  refine ⟨fun code r h => get_country_flag_ok_path env code r h, ?_,
    fun code d h => get_country_details_ok_code env code d h⟩
  intro r r' hr hr'
  rw [get_country_flag_ok_path env "us" r hr,
      get_country_flag_ok_path env "US" r' hr']
  decide

/-- C10, witness at a concrete input. -/
theorem C10_verbatim_case_witness :
    (FlagResult.mk "public/us_flag_250.png" (250, 249)).output_path =
      "public/" ++ "us" ++ "_flag_250.png" ∧
    (FlagResult.mk "public/us_flag_250.png" (250, 249)).output_path ≠
      (FlagResult.mk "public/US_flag_250.png" (250, 249)).output_path ∧
    goodD.country_code = strUpper "us" := by
  refine ⟨(C10_verbatim_case goodEnv).1 "us" _ rfl,
    (C10_verbatim_case goodEnv).2.1 _ _ rfl rfl, ?_⟩
  exact (C10_verbatim_case goodEnv).2.2 "us" goodD rfl

/-- C1 counterexample: a decodable 277×277 input (width 277 > 250) yields a
height of 249, while `floor(H * 250 / W) = floor(277 * 250 / 277) = 250`:
Python's float arithmetic rounds `277 * (250 / 277)` to just below 250 and
`int()` truncates it to 249. -/
theorem C1_counterexample :
    250 < 277 ∧
    (goodEnv.images usEntry.flagsPng).decoded = some (277, 277) ∧
    get_country_flag goodEnv "US" =
      .ok { output_path := "public/US_flag_250.png", image_size := (250, 249) } ∧
    277 * 250 / 277 = 250 ∧ (249 : Nat) ≠ 250 :=
  ⟨by decide, rfl, rfl, by decide, by decide⟩

/-- C1 amended: for every decodable input image the produced image has width
exactly 250, the returned image_size equals the produced dimensions, and the
height is Python's float computation `int(float(H) * (250 / float(W)))`
(modelled bit-exactly by `pyResizeHeight`), which can undershoot
`floor(H * 250 / W)` by one pixel. -/
theorem C1_amended (env : Env) (code : String) (entry : CountryApiEntry)
    (rest : List CountryApiEntry) (w h : Nat)
    (hb : (env.countries code).body = entry :: rest)
    (himg : ¬(400 ≤ (env.images entry.flagsPng).status ∧
        (env.images entry.flagsPng).status < 600))
    (hdec : (env.images entry.flagsPng).decoded = some (w, h)) :
    get_country_flag env code = .ok {
      output_path := "public/" ++ code ++ "_flag_250.png"
      image_size := (250, pyResizeHeight w h) } ∧
    (250, pyResizeHeight w h).1 = 250 := by
  refine ⟨?_, rfl⟩
  simp only [get_country_flag, hb]
  rw [if_neg himg, hdec]

/-- C1 amended, witness at the concrete 277×277 input. -/
theorem C1_amended_witness :
    get_country_flag goodEnv "US" = .ok {
      output_path := "public/" ++ "US" ++ "_flag_250.png"
      image_size := (250, pyResizeHeight 277 277) } ∧
    (250, pyResizeHeight 277 277).1 = 250 := by
  exact C1_amended goodEnv "US" usEntry [] 277 277 rfl (by decide) rfl

end RestCountries
